import Mathlib

/-!
Verification of the 3D-RCAN repository core against its design document.

The embedding covers `rcan/model.py` (graph construction for the residual
channel attention network) and `train.py` (configuration validation and
dataset shape reconciliation).  Keras graph construction is modelled as a
shape-level semantics: a tensor is its (spatial shape, channel count) pair,
and building a layer appends an `Op` node to the growing graph trace; any
exception raised while the graph is built is an `Except.error`.
-/

namespace RCAN

/-- A symbolic Keras tensor: its spatial shape (the batch axis is implicit
and the channel axis is kept separately, mirroring `channels_last`). -/
structure Tensor where
  spatial : List Nat
  channels : Nat
deriving DecidableEq, Repr

/-- `_get_spatial_ndim` from `rcan/model.py`: `ndim(x) - 2` (batch and
channel axes removed), i.e. the number of spatial axes. -/
def _get_spatial_ndim (x : Tensor) : Nat := x.spatial.length

/-- `_get_num_channels` from `rcan/model.py`: size of the last axis. -/
def _get_num_channels (x : Tensor) : Nat := x.channels

/-- One node of the built graph, tagged with the data the claims need. -/
inductive Op where
  | conv (numFilters kernelSize : Nat)
  | globalPool
  | reshape
  | multiply
  | add
  | lambdaScale
  | standardise
  | destandardise
deriving DecidableEq, Repr

/-- Output spatial shape of a Keras convolution with stride 1:
`same` padding preserves the shape, `valid` padding shrinks each axis by
`kernel - 1`. -/
def convOutputSpatial (padding : String) (kernelSize : Nat) (spatial : List Nat) : List Nat :=
  if padding = "same" then spatial else spatial.map (fun s => s - kernelSize + 1)

/-- `_conv` from `rcan/model.py`: dispatches on the spatial rank to
`Conv1D`/`Conv2D`/`Conv3D` and raises `NotImplementedError` for any other
rank.  All call sites in the repository pass `padding='same'` (the default). -/
def _conv (x : Tensor) (num_filters kernel_size : Nat) (padding : String) :
    Except String (Tensor × List Op) :=
  let n := _get_spatial_ndim x
  if n = 1 ∨ n = 2 ∨ n = 3 then
    .ok (⟨convOutputSpatial padding kernel_size x.spatial, num_filters⟩,
      [Op.conv num_filters kernel_size])
  else
    .error (toString n ++ "D convolution is not supported")

/-- `_global_average_pooling` from `rcan/model.py`: only the 2D and 3D
pooling layers are wired up; any other spatial rank raises
`NotImplementedError`.  The pooled tensor keeps only the channel axis. -/
def _global_average_pooling (x : Tensor) : Except String (Tensor × List Op) :=
  let n := _get_spatial_ndim x
  if n = 2 ∨ n = 3 then
    .ok (⟨[], x.channels⟩, [Op.globalPool])
  else
    .error (toString n ++ "D global average pooling is not supported")

/-- Keras `Add` merge layer: requires its two inputs to have the same shape. -/
def addLayer (a b : Tensor) : Except String (Tensor × List Op) :=
  if a = b then .ok (a, [Op.add]) else .error "Add requires matching shapes"

/-- `_channel_attention_block` from `rcan/model.py`: global average pooling,
reshape to `(1, ..., 1, C)`, a `C // reduction` bottleneck 1x1 convolution
with relu, a `C` 1x1 convolution with sigmoid, then a broadcast multiply
with the block input. -/
def _channel_attention_block (x : Tensor) (reduction : Nat) :
    Except String (Tensor × List Op) :=
  let num_channels := _get_num_channels x
  match _global_average_pooling x with
  | .error e => .error e
  | .ok (_, o1) =>
    let y : Tensor := ⟨List.replicate (_get_spatial_ndim x) 1, num_channels⟩
    match _conv y (num_channels / reduction) 1 "same" with
    | .error e => .error e
    | .ok (y2, o2) =>
      match _conv y2 num_channels 1 "same" with
      | .error e => .error e
      | .ok (_, o3) =>
        .ok (x, o1 ++ [Op.reshape] ++ o2 ++ o3 ++ [Op.multiply])

/-- The `for _ in range(repeat)` loop body of
`_residual_channel_attention_blocks`: two 3x3 convolutions, the channel
attention block, an optional residual-scaling `Lambda`, and the residual add. -/
def rcabLoop (num_channels channel_reduction : Nat) (residual_scaling : ℚ) :
    Nat → Tensor → Except String (Tensor × List Op)
  | 0, x => .ok (x, [])
  | Nat.succ k, x =>
    let skip := x
    match _conv x num_channels 3 "same" with
    | .error e => .error e
    | .ok (a, o1) =>
      match _conv a num_channels 3 "same" with
      | .error e => .error e
      | .ok (b, o2) =>
        match _channel_attention_block b channel_reduction with
        | .error e => .error e
        | .ok (c, o3) =>
          let scaleOps : List Op := if residual_scaling ≠ 1 then [Op.lambdaScale] else []
          match addLayer c skip with
          | .error e => .error e
          | .ok (d, o4) =>
            match rcabLoop num_channels channel_reduction residual_scaling k d with
            | .error e => .error e
            | .ok (f, o5) => .ok (f, o1 ++ o2 ++ o3 ++ scaleOps ++ o4 ++ o5)

/-- `_residual_channel_attention_blocks` from `rcan/model.py`: reads the
channel count once and runs the RCAB loop `repeat` times. -/
def _residual_channel_attention_blocks (x : Tensor) (repeats channel_reduction : Nat)
    (residual_scaling : ℚ) : Except String (Tensor × List Op) :=
  rcabLoop (_get_num_channels x) channel_reduction residual_scaling repeats x

/-- The `for _ in range(num_residual_groups)` loop of `build_rcan`: each
iteration runs the RCAB stack, and unless the total number of groups is 1
(in which case the loop `break`s), a post-convolution and the group skip-add. -/
def groupsLoop (num_residual_groups num_channels num_residual_blocks channel_reduction : Nat)
    (residual_scaling : ℚ) : Nat → Tensor → Except String (Tensor × List Op)
  | 0, x => .ok (x, [])
  | Nat.succ k, x =>
    let short_skip := x
    match _residual_channel_attention_blocks x num_residual_blocks channel_reduction
        residual_scaling with
    | .error e => .error e
    | .ok (x1, o1) =>
      if num_residual_groups = 1 then
        .ok (x1, o1)
      else
        match _conv x1 num_channels 3 "same" with
        | .error e => .error e
        | .ok (x2, o2) =>
          match addLayer x2 short_skip with
          | .error e => .error e
          | .ok (x3, o3) =>
            match groupsLoop num_residual_groups num_channels num_residual_blocks
                channel_reduction residual_scaling k x3 with
            | .error e => .error e
            | .ok (x4, o4) => .ok (x4, o1 ++ o2 ++ o3 ++ o4)

/-- `build_rcan` from `rcan/model.py`.  `input_shape` is the full Keras
input shape (spatial axes followed by the channel axis); a negative
`num_output_channels` is replaced by the input channel count
(`input_shape[-1]`, an `IndexError` on an empty shape).  Returns the output
tensor and the ordered list of graph nodes. -/
def build_rcan (input_shape : List Nat)
    (num_channels num_residual_blocks num_residual_groups channel_reduction : Nat)
    (residual_scaling : ℚ) (num_output_channels : Int) :
    Except String (Tensor × List Op) :=
  let nocResolved : Option Nat :=
    if num_output_channels < 0 then input_shape.getLast?
    else some num_output_channels.toNat
  match nocResolved with
  | none => .error "IndexError"
  | some noc =>
    let inputs : Tensor := ⟨input_shape.dropLast, (input_shape.getLast?).getD 0⟩
    match _conv inputs num_channels 3 "same" with
    | .error e => .error e
    | .ok (x1, o1) =>
      let long_skip := x1
      match groupsLoop num_residual_groups num_channels num_residual_blocks
          channel_reduction residual_scaling num_residual_groups x1 with
      | .error e => .error e
      | .ok (x2, o2) =>
        match _conv x2 num_channels 3 "same" with
        | .error e => .error e
        | .ok (x3, o3) =>
          match addLayer x3 long_skip with
          | .error e => .error e
          | .ok (x4, o4) =>
            match _conv x4 noc 3 "same" with
            | .error e => .error e
            | .ok (x5, o5) =>
              .ok (x5, [Op.standardise] ++ o1 ++ o2 ++ o3 ++ o4 ++ o5 ++ [Op.destandardise])

/-- `StandardiseLayer.call` from `rcan/model.py`: `2 * x + (-1)`, with the
scalar arithmetic idealised as exact rationals. -/
def standardiseCall (x : ℚ) : ℚ := 2 * x + (-1)

/-- `DestandardiseLayer.call` from `rcan/model.py`: `0.5 * x + 0.5`. -/
def destandardiseCall (x : ℚ) : ℚ := (1 / 2) * x + 1 / 2

/-! ## `train.py`: data loading and shape reconciliation -/

/-- One `{'raw': ..., 'gt': ...}` entry of an image-pair list. -/
structure ImagePair where
  raw : String
  gt : String
deriving DecidableEq, Repr, Inhabited

/-- The file system as `train.py` observes it: `shapeOf p` is the shape of
the TIFF array `tifffile.imread(p)` returns, and `listDir d` the file names
inside directory `d`. -/
structure FS where
  shapeOf : String → List Nat
  listDir : String → List String

/-- The exceptions `train.py` can raise while loading and reconciling data,
each carrying the data its message interpolates. -/
inductive TrainError where
  | noTiffFound (dir : String)
  | tiffCountMismatch (rawDir gtDir : String)
  | shapeMismatch (rawPath gtPath : String) (rawShape gtShape : List Nat)
  | dimensionMismatch
  | inputShapeDimMismatch (shape : List Nat)
  | broadcastError
  | indexError
  | typeError
deriving DecidableEq, Repr

/-- `np.minimum` on one-dimensional integer arrays: element-wise minimum of
arrays of equal length, with length-1 broadcasting, and a broadcast error
otherwise. -/
def npMinimum (a b : List Nat) : Except TrainError (List Nat) :=
  if a.length = b.length then .ok (List.zipWith min a b)
  else if a.length = 1 then .ok (b.map (fun x => min (a.headD 0) x))
  else if b.length = 1 then .ok (a.map (fun x => min x (b.headD 0)))
  else .error .broadcastError

/-- Lexicographic code-point order on strings, the order Python sorts by. -/
def strLe (a b : String) : Bool :=
  decide (a.data < b.data) || decide (a.data = b.data)

/-- Insert a string into an already sorted list, keeping ascending order. -/
def insertSorted (a : String) : List String → List String
  | [] => [a]
  | b :: rest => if strLe a b then a :: b :: rest else b :: insertSorted a rest

/-- Python's `sorted` on strings, as an insertion sort. -/
def sortStrings (l : List String) : List String := l.foldr insertSorted []

/-- Does `s` end with `suff`?  (`fnmatch` of the glob pattern `*.tif` is a
suffix test.) -/
def strEndsWith (s suff : String) : Bool :=
  decide (suff.data = s.data.drop (s.data.length - suff.data.length))

/-- `sorted(d.glob('*.tif'))`: the `.tif` entries of a directory in sorted
order. -/
def globTif (names : List String) : List String :=
  sortStrings (names.filter (fun f => strEndsWith f ".tif"))

/-- Path of a directory entry, as `pathlib` renders it. -/
def pathJoin (d f : String) : String := d ++ "/" ++ f

/-- The `*_data_dir` block of `load_data_paths`: glob both directories,
require at least one raw TIFF and equally many raw and ground-truth TIFFs,
and pair the files positionally. -/
def resolveDirPairs (fs : FS) (rawDir gtDir : String) : Except TrainError (List ImagePair) :=
  let raw_files := globTif (fs.listDir rawDir)
  let gt_files := globTif (fs.listDir gtDir)
  if raw_files = [] then .error (.noTiffFound rawDir)
  else if raw_files.length ≠ gt_files.length then .error (.tiffCountMismatch rawDir gtDir)
  else .ok (List.zipWith (fun r g => ImagePair.mk (pathJoin rawDir r) (pathJoin gtDir g))
    raw_files gt_files)

/-- The image-pair list `load_data_paths` verifies: the explicit
`*_image_pairs` entries followed by the pairs derived from `*_data_dir`. -/
def resolvedPairList (fs : FS) (imagePairs : List ImagePair)
    (dataDir : Option (String × String)) : Except TrainError (List ImagePair) :=
  match dataDir with
  | none => .ok imagePairs
  | some (rd, gd) =>
    match resolveDirPairs fs rd gd with
    | .error e => .error e
    | .ok extra => .ok (imagePairs ++ extra)

/-- The verification loop of `load_data_paths`: reads every pair, raises a
`ValueError` naming the paths and shapes when a raw and its ground-truth
image differ in shape, and collects the raw shapes. -/
def verifyPairs (fs : FS) : List ImagePair → Except TrainError (List (List Nat))
  | [] => .ok []
  | p :: rest =>
    let rawShape := fs.shapeOf p.raw
    let gtShape := fs.shapeOf p.gt
    if rawShape ≠ gtShape then .error (.shapeMismatch p.raw p.gt rawShape gtShape)
    else
      match verifyPairs fs rest with
      | .error e => .error e
      | .ok shapes => .ok (rawShape :: shapes)

/-- The `ndim` uniformity loop of `load_data_paths`: every image must have
the same number of dimensions as the first one. -/
def checkNdims (shapes : List (List Nat)) : Except TrainError Unit :=
  if shapes.any (fun s => s.length ≠ (shapes.headD []).length) then .error .dimensionMismatch
  else .ok ()

/-- The `np.minimum` fold of `load_data_paths`, seeded with the accumulator. -/
def npMinList (acc : List Nat) : List (List Nat) → Except TrainError (List Nat)
  | [] => .ok acc
  | s :: rest =>
    match npMinimum acc s with
    | .error e => .error e
    | .ok acc2 => npMinList acc2 rest

/-- The body of `load_data_paths` past the directory-append block: return
`none` for an empty pair list, else verify the pairs and fold the minimum. -/
def verifyAndMin (fs : FS) (pairList : List ImagePair) :
    Except TrainError (Option (List ImagePair × List Nat)) :=
  if pairList = [] then .ok none
  else
    match verifyPairs fs pairList with
    | .error e => .error e
    | .ok shapes =>
      match checkNdims shapes with
      | .error e => .error e
      | .ok _ =>
        match shapes with
        | [] => .error .indexError
        | s0 :: rest =>
          match npMinList s0 rest with
          | .error e => .error e
          | .ok m => .ok (some (pairList, m))

/-- `load_data_paths` from `train.py`.  Returns `none` (Python's
`(None, None)`) when the combined pair list is empty, otherwise the
verified pair list together with the element-wise minimum of the shapes. -/
def load_data_paths (fs : FS) (imagePairs : List ImagePair)
    (dataDir : Option (String × String)) :
    Except TrainError (Option (List ImagePair × List Nat)) :=
  match resolvedPairList fs imagePairs dataDir with
  | .error e => .error e
  | .ok pairList => verifyAndMin fs pairList

/-- The data-source and `input_shape` part of the validated configuration,
as the module-level code of `train.py` consumes it. -/
structure TrainConfig where
  trainingImagePairs : List ImagePair
  trainingDataDir : Option (String × String)
  validationImagePairs : List ImagePair
  validationDataDir : Option (String × String)
  inputShapeConfig : Option (List Nat)

/-- The inferred `input_shape` default of `train.py`:
`(16, 256, 256) if ndim == 3 else (256, 256)`. -/
def defaultInputShape (ndim : Nat) : List Nat :=
  if ndim = 3 then [16, 256, 256] else [256, 256]

/-- Lines 165-172 of `train.py`: take the configured `input_shape` (whose
length must equal the data dimensionality) or the inferred default. -/
def resolveBase (cfg : TrainConfig) (ndim : Nat) : Except TrainError (List Nat) :=
  match cfg.inputShapeConfig with
  | some s => if s.length ≠ ndim then .error (.inputShapeDimMismatch s) else .ok s
  | none => .ok (defaultInputShape ndim)

/-- Lines 174-176 of `train.py`: fold the base shape with the training
minimum and, when a validation split is present (a non-empty pair list),
with the validation minimum. -/
def combineShapes (base minTrain : List Nat)
    (valResult : Option (List ImagePair × List Nat)) : Except TrainError (List Nat) :=
  match npMinimum base minTrain with
  | .error e => .error e
  | .ok s1 =>
    match valResult with
    | some (_ :: _, minVal) => npMinimum s1 minVal
    | _ => .ok s1

/-- Lines 161-163 of `train.py`: when a validation split is present (a
non-empty pair list, Python truthiness), its first image must have the
training dimensionality. -/
def valNdimCheck (fs : FS) (ndim : Nat)
    (valResult : Option (List ImagePair × List Nat)) : Except TrainError Unit :=
  match valResult with
  | some (v0 :: _, _) =>
    if (fs.shapeOf v0.raw).length ≠ ndim then .error .dimensionMismatch else .ok ()
  | _ => .ok ()

/-- The module-level input-shape reconciliation of `train.py` (lines
154-176): load both splits, read the dimensionality off the first training
image, check the first validation image against it, resolve the base shape
and fold in the per-split minima. -/
def resolveInputShape (fs : FS) (cfg : TrainConfig) : Except TrainError (List Nat) :=
  match load_data_paths fs cfg.trainingImagePairs cfg.trainingDataDir with
  | .error e => .error e
  | .ok none => .error .typeError
  | .ok (some (trainPairs, minTrain)) =>
    match load_data_paths fs cfg.validationImagePairs cfg.validationDataDir with
    | .error e => .error e
    | .ok valResult =>
      match trainPairs with
      | [] => .error .indexError
      | p0 :: _ =>
        match valNdimCheck fs ((fs.shapeOf p0.raw).length) valResult with
        | .error e => .error e
        | .ok _ =>
          match resolveBase cfg ((fs.shapeOf p0.raw).length) with
          | .error e => .error e
          | .ok base => combineShapes base minTrain valResult

/-! ## `train.py`: configuration schema and defaults -/

/-- A JSON value as `json.load` produces it (numbers split into the
integers and the other rationals, matching the JSON Schema `integer` /
`number` distinction). -/
inductive JVal where
  | jint (n : Int)
  | jnum (q : ℚ)
  | jstr (s : String)
  | jbool (b : Bool)
  | jarr (xs : List JVal)
  | jobj (kvs : List (String × JVal))

/-- First value bound to a key in a JSON object. -/
def lookupKey : List (String × JVal) → String → Option JVal
  | [], _ => none
  | (k, v) :: rest, key => if k = key then some v else lookupKey rest key

/-- JSON Schema `{'type': 'string'}`. -/
def isJString : JVal → Bool
  | .jstr _ => true
  | _ => false

/-- JSON Schema `{'type': 'boolean'}`. -/
def isJBool : JVal → Bool
  | .jbool _ => true
  | _ => false

/-- JSON Schema `{'type': 'integer', 'minimum': lo}` (a number with zero
fractional part also counts as an integer). -/
def isIntegerMin (lo : Int) : JVal → Bool
  | .jint n => decide (lo ≤ n)
  | .jnum q => decide (q.den = 1 ∧ (lo : ℚ) ≤ q)
  | _ => false

/-- JSON Schema `{'type': 'number'}`. -/
def isJNumber : JVal → Bool
  | .jint _ => true
  | .jnum _ => true
  | _ => false

/-- JSON Schema `{'type': 'number', 'minimum': lo}`. -/
def isJNumberGe (lo : ℚ) : JVal → Bool
  | .jint n => decide (lo ≤ (n : ℚ))
  | .jnum q => decide (lo ≤ q)
  | _ => false

/-- JSON Schema `{'type': 'number', 'minimum': 0, 'maximum': 1}`. -/
def isJNumberRange01 : JVal → Bool
  | .jint n => decide (0 ≤ n ∧ n ≤ 1)
  | .jnum q => decide (0 ≤ q ∧ q ≤ 1)
  | _ => false

/-- The schema's `raw_gt_pair` definition: an object whose `raw` and `gt`
members, when present, are strings (no member is required and other
members are not constrained). -/
def isRawGtPair : JVal → Bool
  | .jobj kvs =>
    (match lookupKey kvs "raw" with
      | none => true
      | some v => isJString v) &&
    (match lookupKey kvs "gt" with
      | none => true
      | some v => isJString v)
  | _ => false

/-- The schema's `image_pairs` definition: a non-empty array of
`raw_gt_pair` objects. -/
def isImagePairs : JVal → Bool
  | .jarr xs => decide (1 ≤ xs.length) && xs.all isRawGtPair
  | _ => false

/-- The schema's `input_shape` property: an array of 2 or 3 integers, each
at least 1. -/
def isInputShape : JVal → Bool
  | .jarr xs => decide (2 ≤ xs.length) && decide (xs.length ≤ 3) && xs.all (isIntegerMin 1)
  | _ => false

/-- The schema's `loss` property: the enum `{'mae', 'mse'}`. -/
def isLossEnum : JVal → Bool
  | .jstr s => s == "mae" || s == "mse"
  | _ => false

/-- The schema's `metrics` property: an array over the enum
`{'psnr', 'ssim'}`. -/
def isMetricsArr : JVal → Bool
  | .jarr xs => xs.all (fun v =>
      match v with
      | .jstr s => s == "psnr" || s == "ssim"
      | _ => false)
  | _ => false

/-- The top-level property names of the schema in `train.py`. -/
def allowedKeys : List String :=
  ["training_image_pairs", "validation_image_pairs", "training_data_dir",
   "validation_data_dir", "input_shape", "num_channels", "num_residual_blocks",
   "num_residual_groups", "channel_reduction", "epochs", "steps_per_epoch",
   "batch_size", "data_augmentation", "intensity_threshold",
   "area_ratio_threshold", "initial_learning_rate", "loss", "metrics"]

/-- Validation of one top-level member against the schema's `properties`;
with `additionalProperties: False` an unknown key always fails. -/
def validateProp (k : String) (v : JVal) : Bool :=
  if k = "training_image_pairs" then isImagePairs v
  else if k = "validation_image_pairs" then isImagePairs v
  else if k = "training_data_dir" then isRawGtPair v
  else if k = "validation_data_dir" then isRawGtPair v
  else if k = "input_shape" then isInputShape v
  else if k = "num_channels" then isIntegerMin 1 v
  else if k = "num_residual_blocks" then isIntegerMin 1 v
  else if k = "num_residual_groups" then isIntegerMin 1 v
  else if k = "channel_reduction" then isIntegerMin 1 v
  else if k = "epochs" then isIntegerMin 1 v
  else if k = "steps_per_epoch" then isIntegerMin 1 v
  else if k = "batch_size" then isIntegerMin 1 v
  else if k = "data_augmentation" then isJBool v
  else if k = "intensity_threshold" then isJNumber v
  else if k = "area_ratio_threshold" then isJNumberRange01 v
  else if k = "initial_learning_rate" then isJNumberGe (1 / 1000000) v
  else if k = "loss" then isLossEnum v
  else if k = "metrics" then isMetricsArr v
  else false

/-- `jsonschema.validate(config, schema)` for the schema of `train.py`:
the config is an object, every member satisfies its property schema (no
additional properties), and at least one of `training_image_pairs` and
`training_data_dir` is present (`anyOf` of the two `required` clauses). -/
def validateConfig : JVal → Bool
  | .jobj kvs =>
    kvs.all (fun kv => validateProp kv.fst kv.snd) &&
    ((lookupKey kvs "training_image_pairs").isSome ||
      (lookupKey kvs "training_data_dir").isSome)
  | _ => false

/-- Python's `dict.setdefault`: insert the key with the given value only
when it is not already present. -/
def setdefault (kvs : List (String × JVal)) (k : String) (v : JVal) :
    List (String × JVal) :=
  match lookupKey kvs k with
  | some _ => kvs
  | none => kvs ++ [(k, v)]

/-- The `config.setdefault(...)` sequence of `train.py` (lines 140-152),
in source order. -/
def configDefaults : List (String × JVal) :=
  [("epochs", .jint 300), ("steps_per_epoch", .jint 256), ("batch_size", .jint 1),
   ("num_channels", .jint 32), ("num_residual_blocks", .jint 3),
   ("num_residual_groups", .jint 5), ("channel_reduction", .jint 8),
   ("data_augmentation", .jbool true), ("intensity_threshold", .jnum (1 / 4)),
   ("area_ratio_threshold", .jnum (1 / 2)), ("initial_learning_rate", .jnum (1 / 10000)),
   ("loss", .jstr "mae"), ("metrics", .jarr [.jstr "psnr"])]

/-- Applying every default of `train.py` to a parsed config object. -/
def applyDefaults (kvs : List (String × JVal)) : List (String × JVal) :=
  configDefaults.foldl (fun acc kd => setdefault acc kd.fst kd.snd) kvs

/-! ## Lemmas about the graph builder -/

theorem mk_eta (x : Tensor) : Tensor.mk x.spatial x.channels = x := rfl

theorem conv_same_ok (x : Tensor) (f k : Nat)
    (h : x.spatial.length = 1 ∨ x.spatial.length = 2 ∨ x.spatial.length = 3) :
    _conv x f k "same" = .ok (⟨x.spatial, f⟩, [Op.conv f k]) := by
  simp [_conv, _get_spatial_ndim, convOutputSpatial, h]

theorem ca_ok (x : Tensor) (r : Nat)
    (h : x.spatial.length = 2 ∨ x.spatial.length = 3) :
    _channel_attention_block x r =
      .ok (x, [Op.globalPool, Op.reshape, Op.conv (x.channels / r) 1,
        Op.conv x.channels 1, Op.multiply]) := by
  rcases h with h | h <;>
    simp [_channel_attention_block, _global_average_pooling, _conv,
      _get_num_channels, _get_spatial_ndim, convOutputSpatial, h]

/-- The trace one RCAB iteration appends. -/
def rcabBlockOps (nc cr : Nat) (rs : ℚ) : List Op :=
  [Op.conv nc 3, Op.conv nc 3, Op.globalPool, Op.reshape, Op.conv (nc / cr) 1,
    Op.conv nc 1, Op.multiply] ++ (if rs ≠ 1 then [Op.lambdaScale] else []) ++ [Op.add]

/-- The trace of a full RCAB stack of `nrb` blocks. -/
def stackOps (nc nrb cr : Nat) (rs : ℚ) : List Op :=
  (List.replicate nrb (rcabBlockOps nc cr rs)).flatten

theorem rcabLoop_ok (nc cr : Nat) (rs : ℚ) (k : Nat) (x : Tensor)
    (h : x.spatial.length = 2 ∨ x.spatial.length = 3) (hc : x.channels = nc) :
    rcabLoop nc cr rs k x = .ok (x, stackOps nc k cr rs) := by
  subst hc
  induction k with
  | zero => simp [rcabLoop, stackOps]
  | succ n ih =>
    rcases h with h | h <;>
      simp [rcabLoop, conv_same_ok, ca_ok, addLayer, mk_eta, h, ih, stackOps,
        rcabBlockOps, List.replicate_succ, List.append_assoc]

theorem rcab_blocks_ok (x : Tensor) (nrb cr : Nat) (rs : ℚ)
    (h : x.spatial.length = 2 ∨ x.spatial.length = 3) :
    _residual_channel_attention_blocks x nrb cr rs =
      .ok (x, stackOps x.channels nrb cr rs) := by
  unfold _residual_channel_attention_blocks _get_num_channels
  exact rcabLoop_ok x.channels cr rs nrb x h rfl

/-- The trace of `k` iterations of the residual-group loop when the total
group count is `total`. -/
def groupsOps (total nc nrb cr : Nat) (rs : ℚ) : Nat → List Op
  | 0 => []
  | Nat.succ m =>
    if total = 1 then stackOps nc nrb cr rs
    else stackOps nc nrb cr rs ++ [Op.conv nc 3, Op.add] ++ groupsOps total nc nrb cr rs m

theorem groupsLoop_ok (total nc nrb cr : Nat) (rs : ℚ) (k : Nat) (x : Tensor)
    (h : x.spatial.length = 2 ∨ x.spatial.length = 3) (hc : x.channels = nc) :
    groupsLoop total nc nrb cr rs k x = .ok (x, groupsOps total nc nrb cr rs k) := by
  subst hc
  induction k with
  | zero => simp [groupsLoop, groupsOps]
  | succ n ih =>
    by_cases h1 : total = 1 <;>
      simp [groupsLoop, rcab_blocks_ok x _ _ _ h, conv_same_ok, addLayer, mk_eta,
        h, h1, ih, groupsOps, List.append_assoc]

theorem build_rcan_ok (S : List Nat) (c nc nrb nrg cr : Nat) (rs : ℚ) (noc : Int)
    (h : S.length = 2 ∨ S.length = 3) :
    build_rcan (S ++ [c]) nc nrb nrg cr rs noc =
      .ok (⟨S, if noc < 0 then c else noc.toNat⟩,
        [Op.standardise, Op.conv nc 3] ++ groupsOps nrg nc nrb cr rs nrg ++
          [Op.conv nc 3, Op.add, Op.conv (if noc < 0 then c else noc.toNat) 3,
            Op.destandardise]) := by
  rcases h with h | h <;> by_cases hn : noc < 0 <;>
    simp [build_rcan, hn, List.getLast?_concat, List.dropLast_concat, conv_same_ok,
      groupsLoop_ok, addLayer, mk_eta, h, List.append_assoc]

theorem groupsOps_ne_one (total nc nrb cr : Nat) (rs : ℚ) (k : Nat) (ht : total ≠ 1) :
    groupsOps total nc nrb cr rs k =
      (List.replicate k (stackOps nc nrb cr rs ++ [Op.conv nc 3, Op.add])).flatten := by
  induction k with
  | zero => simp [groupsOps]
  | succ n ih => simp [groupsOps, ht, ih, List.replicate_succ, List.append_assoc]

/-- Does a graph node come from a convolution layer? -/
def isConvOp : Op → Bool
  | .conv _ _ => true
  | _ => false

/-- Does a graph node come from an `Add` merge layer? -/
def isAddOp : Op → Bool
  | .add => true
  | _ => false

/-! ## Claim theorems for the network assembler -/

/-- **C1.** With `num_residual_groups == 1` the residual-group loop runs only
the RCAB stack (no group post-convolution, no group skip-add), while every
`num_residual_groups >= 2` build runs, per group, the RCAB stack, a
convolution back to `num_channels` and the short-skip add; hence the
one-group graph has strictly fewer nodes, strictly fewer `Add` nodes and
strictly fewer convolution nodes than the otherwise identical two-group
graph. -/
theorem one_group_skips_group_postconv
    (S : List Nat) (c num_channels num_residual_blocks channel_reduction : Nat)
    (residual_scaling : ℚ) (num_output_channels : Int)
    (h : S.length = 2 ∨ S.length = 3) :
    ∃ sOps,
      (∃ t, _residual_channel_attention_blocks ⟨S, num_channels⟩ num_residual_blocks
          channel_reduction residual_scaling = .ok (t, sOps)) ∧
      (∃ t, build_rcan (S ++ [c]) num_channels num_residual_blocks 1 channel_reduction
          residual_scaling num_output_channels = .ok (t,
        [Op.standardise, Op.conv num_channels 3] ++ sOps ++
          [Op.conv num_channels 3, Op.add,
            Op.conv (if num_output_channels < 0 then c else num_output_channels.toNat) 3,
            Op.destandardise])) ∧
      (∀ g, 2 ≤ g → ∃ t, build_rcan (S ++ [c]) num_channels num_residual_blocks g
          channel_reduction residual_scaling num_output_channels = .ok (t,
        [Op.standardise, Op.conv num_channels 3] ++
          (List.replicate g (sOps ++ [Op.conv num_channels 3, Op.add])).flatten ++
          [Op.conv num_channels 3, Op.add,
            Op.conv (if num_output_channels < 0 then c else num_output_channels.toNat) 3,
            Op.destandardise])) ∧
      (∀ t1 ops1 t2 ops2,
        build_rcan (S ++ [c]) num_channels num_residual_blocks 1 channel_reduction
          residual_scaling num_output_channels = .ok (t1, ops1) →
        build_rcan (S ++ [c]) num_channels num_residual_blocks 2 channel_reduction
          residual_scaling num_output_channels = .ok (t2, ops2) →
        ops1.length < ops2.length ∧
        List.countP isAddOp ops1 < List.countP isAddOp ops2 ∧
        List.countP isConvOp ops1 < List.countP isConvOp ops2) := by
  refine ⟨stackOps num_channels num_residual_blocks channel_reduction residual_scaling,
    ⟨⟨S, num_channels⟩, rcab_blocks_ok _ _ _ _ h⟩, ?_, ?_, ?_⟩
  · refine ⟨⟨S, if num_output_channels < 0 then c else num_output_channels.toNat⟩, ?_⟩
    rw [build_rcan_ok S c _ _ 1 _ _ _ h]
    simp [groupsOps]
  · intro g hg
    refine ⟨⟨S, if num_output_channels < 0 then c else num_output_channels.toNat⟩, ?_⟩
    rw [build_rcan_ok S c _ _ g _ _ _ h]
    rw [groupsOps_ne_one _ _ _ _ _ _ (by omega)]
  · intro t1 ops1 t2 ops2 h1 h2
    rw [build_rcan_ok S c _ _ 1 _ _ _ h] at h1
    rw [build_rcan_ok S c _ _ 2 _ _ _ h] at h2
    rw [groupsOps_ne_one _ _ _ _ _ _ (by omega)] at h2
    simp only [Except.ok.injEq, Prod.mk.injEq] at h1 h2
    obtain ⟨-, h1⟩ := h1
    obtain ⟨-, h2⟩ := h2
    subst h1
    subst h2
    simp only [groupsOps, if_pos rfl, List.replicate_succ, List.replicate_zero,
      List.flatten_cons, List.flatten_nil, List.length_append, List.countP_append,
      List.countP_cons, List.length_cons, List.length_nil, List.append_nil,
      List.append_assoc, isAddOp, isConvOp]
    simp [isAddOp, isConvOp]
    omega

/-- **C2.** For every 2D or 3D spatial input shape and all hyperparameters,
`build_rcan` succeeds and its output tensor has the input's spatial shape
(no axis resized) and `num_output_channels` channels, the input channel
count standing in when `num_output_channels` is negative. -/
theorem build_rcan_output_shape
    (S : List Nat) (c num_channels num_residual_blocks num_residual_groups
      channel_reduction : Nat) (residual_scaling : ℚ) (num_output_channels : Int)
    (h : S.length = 2 ∨ S.length = 3) :
    ∃ out ops,
      build_rcan (S ++ [c]) num_channels num_residual_blocks num_residual_groups
        channel_reduction residual_scaling num_output_channels = .ok (out, ops) ∧
      out.spatial = S ∧
      out.channels = (if num_output_channels < 0 then c else num_output_channels.toNat) := by
  exact ⟨_, _, build_rcan_ok S c _ _ _ _ _ _ h, rfl, rfl⟩

/-- Witness for C2 at a concrete 2D shape with a negative channel override. -/
theorem build_rcan_output_shape_witness :
    ∃ out ops,
      build_rcan ([8, 8] ++ [1]) 4 1 5 2 1 (-1) = .ok (out, ops) ∧
      out.spatial = [8, 8] ∧
      out.channels = (if (-1 : Int) < 0 then 1 else (-1 : Int).toNat) :=
  build_rcan_output_shape [8, 8] 1 4 1 5 2 1 (-1) (Or.inl rfl)

/-- Witness for C1 at a concrete 2D shape. -/
theorem one_group_skips_group_postconv_witness :
    ∃ sOps,
      (∃ t, _residual_channel_attention_blocks ⟨[8, 8], 4⟩ 1 2 1 = .ok (t, sOps)) ∧
      (∃ t, build_rcan ([8, 8] ++ [1]) 4 1 1 2 1 (-1) = .ok (t,
        [Op.standardise, Op.conv 4 3] ++ sOps ++
          [Op.conv 4 3, Op.add, Op.conv (if (-1 : Int) < 0 then 1 else (-1 : Int).toNat) 3,
            Op.destandardise])) ∧
      (∀ g, 2 ≤ g → ∃ t, build_rcan ([8, 8] ++ [1]) 4 1 g 2 1 (-1) = .ok (t,
        [Op.standardise, Op.conv 4 3] ++
          (List.replicate g (sOps ++ [Op.conv 4 3, Op.add])).flatten ++
          [Op.conv 4 3, Op.add, Op.conv (if (-1 : Int) < 0 then 1 else (-1 : Int).toNat) 3,
            Op.destandardise])) ∧
      (∀ t1 ops1 t2 ops2,
        build_rcan ([8, 8] ++ [1]) 4 1 1 2 1 (-1) = .ok (t1, ops1) →
        build_rcan ([8, 8] ++ [1]) 4 1 2 2 1 (-1) = .ok (t2, ops2) →
        ops1.length < ops2.length ∧
        List.countP isAddOp ops1 < List.countP isAddOp ops2 ∧
        List.countP isConvOp ops1 < List.countP isConvOp ops2) :=
  one_group_skips_group_postconv [8, 8] 1 4 1 2 1 (-1) (Or.inl rfl)

/-- **C4.** `_conv` raises exactly for spatial rank outside `{1,2,3}`, the
pooling step raises exactly for spatial rank outside `{2,3}`, and a 1D
tensor is accepted by the convolution dispatch yet rejected inside the
channel attention block — all at graph-build time. -/
theorem unsupported_rank_dispatch :
    (∀ (x : Tensor) (f k : Nat) (p : String),
      (∃ e, _conv x f k p = .error e) ↔
        ¬(_get_spatial_ndim x = 1 ∨ _get_spatial_ndim x = 2 ∨ _get_spatial_ndim x = 3)) ∧
    (∀ x : Tensor,
      (∃ e, _global_average_pooling x = .error e) ↔
        ¬(_get_spatial_ndim x = 2 ∨ _get_spatial_ndim x = 3)) ∧
    (∀ (x : Tensor) (f k r : Nat), _get_spatial_ndim x = 1 →
      (∃ y, _conv x f k "same" = .ok y) ∧
      (∃ e, _channel_attention_block x r = .error e)) := by
  refine ⟨?_, ?_, ?_⟩
  · intro x f k p
    constructor
    · rintro ⟨e, he⟩ hcond
      simp [_conv, hcond] at he
    · intro hcond
      exact ⟨toString (_get_spatial_ndim x) ++ "D convolution is not supported",
        by simp [_conv, hcond]⟩
  · intro x
    constructor
    · rintro ⟨e, he⟩ hcond
      simp [_global_average_pooling, hcond] at he
    · intro hcond
      exact ⟨toString (_get_spatial_ndim x) ++ "D global average pooling is not supported",
        by simp [_global_average_pooling, hcond]⟩
  · intro x f k r h1
    refine ⟨⟨_, conv_same_ok x f k (Or.inl h1)⟩, ?_⟩
    have hg : _global_average_pooling x =
        .error (toString (_get_spatial_ndim x) ++ "D global average pooling is not supported") := by
      simp [_global_average_pooling, _get_spatial_ndim] at h1 ⊢
      simp [h1]
    refine ⟨toString (_get_spatial_ndim x) ++ "D global average pooling is not supported", ?_⟩
    unfold _channel_attention_block
    rw [hg]

/-- Witness for C4: a 1D tensor passes convolution dispatch and fails the
channel attention pooling step. -/
theorem unsupported_rank_dispatch_witness :
    (∃ y, _conv ⟨[7], 3⟩ 1 1 "same" = .ok y) ∧
    (∃ e, _channel_attention_block ⟨[7], 3⟩ 5 = .error e) :=
  unsupported_rank_dispatch.2.2 ⟨[7], 3⟩ 1 1 5 rfl

/-- **C5, counterexample.** The implementation does not guard the bottleneck:
with 4 channels and reduction 8 the down-projection convolution is built
with `4 // 8 = 0` filters. -/
theorem ca_zero_bottleneck_counterexample :
    _channel_attention_block ⟨[4, 4], 4⟩ 8 =
      .ok (⟨[4, 4], 4⟩, [Op.globalPool, Op.reshape, Op.conv 0 1, Op.conv 4 1,
        Op.multiply]) ∧ ¬ 1 ≤ (4 : Nat) / 8 := by
  exact ⟨rfl, by decide⟩

/-- **C5, amended.** The attention bottleneck width is the unguarded integer
quotient `num_channels / channel_reduction`; it is at least 1 exactly when
`channel_reduction ≤ num_channels`, and truncates to 0 whenever
`num_channels < channel_reduction`. -/
theorem ca_bottleneck_amended (x : Tensor) (r : Nat) (hr : 1 ≤ r)
    (h : x.spatial.length = 2 ∨ x.spatial.length = 3) :
    _channel_attention_block x r =
      .ok (x, [Op.globalPool, Op.reshape, Op.conv (x.channels / r) 1,
        Op.conv x.channels 1, Op.multiply]) ∧
    (1 ≤ x.channels / r ↔ r ≤ x.channels) :=
  ⟨ca_ok x r h, Nat.one_le_div_iff hr⟩

/-- Witness for the amended C5 at 32 channels and reduction 8. -/
theorem ca_bottleneck_amended_witness :
    _channel_attention_block ⟨[4, 4], 32⟩ 8 =
      .ok (⟨[4, 4], 32⟩, [Op.globalPool, Op.reshape, Op.conv ((32 : Nat) / 8) 1,
        Op.conv 32 1, Op.multiply]) ∧
    (1 ≤ (32 : Nat) / 8 ↔ 8 ≤ (32 : Nat)) :=
  ca_bottleneck_amended ⟨[4, 4], 32⟩ 8 (by decide) (Or.inl rfl)

/-- **C7.** The standardise layer `y = 2x - 1` and the destandardise layer
`y = x/2 + 1/2` are exact affine inverses of one another (scalar arithmetic
idealised as exact rationals). -/
theorem normalisation_round_trip (x : ℚ) :
    destandardiseCall (standardiseCall x) = x ∧
    standardiseCall (destandardiseCall x) = x := by
  unfold standardiseCall destandardiseCall
  constructor <;> ring

/-! ## Lemmas about data loading and shape reconciliation -/

/-- Shapes collected by a successful verification loop, and the per-pair
shape agreement it certifies. -/
theorem verifyPairs_ok (fs : FS) (L : List ImagePair) (shapes : List (List Nat))
    (h : verifyPairs fs L = .ok shapes) :
    shapes = L.map (fun p => fs.shapeOf p.raw) ∧
    ∀ p ∈ L, fs.shapeOf p.raw = fs.shapeOf p.gt := by
  induction L generalizing shapes with
  | nil =>
    simp only [verifyPairs, Except.ok.injEq] at h
    simp [← h]
  | cons q rest ih =>
    simp only [verifyPairs] at h
    split at h
    · cases h
    · rename_i hq
      push_neg at hq
      split at h
      · cases h
      · rename_i s hv
        simp only [Except.ok.injEq] at h
        obtain ⟨hs, hmatch⟩ := ih s hv
        subst hs
        constructor
        · simp [← h]
        · intro p hp
          rcases List.mem_cons.mp hp with h1 | h1
          · exact h1 ▸ hq
          · exact hmatch p h1

/-- The verification loop succeeds when every pair's raw and ground-truth
shapes agree. -/
theorem verifyPairs_ok_of_match (fs : FS) (L : List ImagePair)
    (h : ∀ p ∈ L, fs.shapeOf p.raw = fs.shapeOf p.gt) :
    verifyPairs fs L = .ok (L.map (fun p => fs.shapeOf p.raw)) := by
  induction L with
  | nil => rfl
  | cons q rest ih =>
    have hq : fs.shapeOf q.raw = fs.shapeOf q.gt := h q (by simp)
    have ih2 := ih (fun p hp => h p (by simp [hp]))
    simp only [verifyPairs, if_neg (not_not_intro hq), ih2]
    simp

/-- The verification loop raises a shape-mismatch error, carrying an
offending pair's paths and shapes, whenever some pair mismatches. -/
theorem verifyPairs_error_of_mismatch (fs : FS) (L : List ImagePair) (p : ImagePair)
    (hp : p ∈ L) (hne : fs.shapeOf p.raw ≠ fs.shapeOf p.gt) :
    ∃ r g, verifyPairs fs L =
        .error (.shapeMismatch r g (fs.shapeOf r) (fs.shapeOf g)) ∧
      ImagePair.mk r g ∈ L ∧ fs.shapeOf r ≠ fs.shapeOf g := by
  induction L with
  | nil => cases hp
  | cons q rest ih =>
    by_cases hq : fs.shapeOf q.raw ≠ fs.shapeOf q.gt
    · refine ⟨q.raw, q.gt, ?_, List.mem_cons_self q rest, hq⟩
      simp [verifyPairs, hq]
    · push_neg at hq
      have hpr : p ∈ rest := by
        rcases List.mem_cons.mp hp with h1 | h1
        · subst h1; exact absurd hq hne
        · exact h1
      obtain ⟨r, g, herr, hmem, hne2⟩ := ih hpr
      refine ⟨r, g, ?_, List.mem_cons_of_mem _ hmem, hne2⟩
      simp only [verifyPairs, if_neg (not_not_intro hq), herr]

/-- A successful dimensionality check certifies that every shape has the
first shape's length. -/
theorem checkNdims_ok (shapes : List (List Nat)) (h : checkNdims shapes = .ok ()) :
    ∀ s ∈ shapes, s.length = (shapes.headD []).length := by
  intro s hs
  simp [checkNdims] at h
  simpa using h s hs

/-- The dimensionality check fails when some shape's length differs from
the first shape's length. -/
theorem checkNdims_error (shapes : List (List Nat))
    (h : ∃ s ∈ shapes, s.length ≠ (shapes.headD []).length) :
    checkNdims shapes = .error .dimensionMismatch := by
  obtain ⟨s, hs, hne⟩ := h
  simp [checkNdims]
  exact ⟨s, hs, by simpa using hne⟩

theorem npMinimum_eq_zipWith (a b : List Nat) (h : a.length = b.length) :
    npMinimum a b = .ok (List.zipWith min a b) := by
  simp [npMinimum, h]

theorem npMinList_ok (shapes : List (List Nat)) :
    ∀ acc, (∀ s ∈ shapes, s.length = acc.length) →
      npMinList acc shapes = .ok (shapes.foldl (fun a s => List.zipWith min a s) acc) := by
  induction shapes with
  | nil => intro acc _; rfl
  | cons s rest ih =>
    intro acc h
    have hs : s.length = acc.length := h s (by simp)
    simp only [npMinList, npMinimum_eq_zipWith acc s hs.symm]
    have hlen : (List.zipWith min acc s).length = acc.length := by
      simp [List.length_zipWith, hs]
    rw [ih _ (fun t ht => by rw [hlen]; exact h t (by simp [ht]))]
    simp [List.foldl_cons]

/-- The element-wise shape minimum `load_data_paths` computes: the first
shape folded with all the others. -/
def foldMinShapes : List (List Nat) → List Nat
  | [] => []
  | s :: rest => rest.foldl (fun a b => List.zipWith min a b) s

/-- Inversion for the body of `load_data_paths`: a `some` result returns
the input pair list, certifies the per-pair and cross-pair shape checks,
and returns the element-wise minimum of all raw shapes. -/
theorem verifyAndMin_ok_some (fs : FS) (pairList L : List ImagePair) (m : List Nat)
    (h : verifyAndMin fs pairList = .ok (some (L, m))) :
    L = pairList ∧ L ≠ [] ∧
    (∀ p ∈ L, fs.shapeOf p.raw = fs.shapeOf p.gt) ∧
    (∀ p ∈ L, (fs.shapeOf p.raw).length = (fs.shapeOf (L.headD default).raw).length) ∧
    m = foldMinShapes (L.map (fun p => fs.shapeOf p.raw)) := by
  by_cases hpl : pairList = []
  · simp [verifyAndMin, hpl] at h
  · rw [verifyAndMin, if_neg hpl] at h
    split at h
    · cases h
    · rename_i shapes hv
      obtain ⟨hsh, hmatch⟩ := verifyPairs_ok fs pairList shapes hv
      split at h
      · cases h
      · rename_i u hc
        have hnd := checkNdims_ok shapes (by cases u; exact hc)
        split at h
        · cases h
        · rename_i s0 rest2
          have hlens : ∀ s ∈ rest2, s.length = s0.length := by
            intro s hs
            simpa using hnd s (List.mem_cons_of_mem _ hs)
          rw [npMinList_ok rest2 s0 hlens] at h
          simp only [Except.ok.injEq, Option.some.injEq, Prod.mk.injEq] at h
          obtain ⟨hL, hm⟩ := h
          subst hL
          refine ⟨rfl, hpl, hmatch, ?_, ?_⟩
          · intro p hp
            have hmem : fs.shapeOf p.raw ∈ s0 :: rest2 := by
              rw [hsh]
              exact List.mem_map_of_mem _ hp
            have h1 := hnd _ hmem
            cases pairList with
            | nil => exact absurd rfl hpl
            | cons q qs =>
              have hq : s0 = fs.shapeOf q.raw := by
                have h2 := congrArg (fun l => l.headD ([] : List Nat)) hsh
                simpa using h2
              simpa [hq] using h1
          · rw [← hm, ← hsh]
            rfl

/-- `verifyAndMin` answers `none` only for the empty pair list. -/
theorem verifyAndMin_none (fs : FS) (pl : List ImagePair)
    (h : verifyAndMin fs pl = .ok none) : pl = [] := by
  by_cases hpl : pl = []
  · exact hpl
  · exfalso
    rw [verifyAndMin, if_neg hpl] at h
    split at h
    · cases h
    · split at h
      · cases h
      · split at h
        · cases h
        · split at h
          · cases h
          · simp at h

/-- Inversion for `load_data_paths` returning a split. -/
theorem load_ok_some (fs : FS) (ip : List ImagePair) (dd : Option (String × String))
    (L : List ImagePair) (m : List Nat)
    (h : load_data_paths fs ip dd = .ok (some (L, m))) :
    resolvedPairList fs ip dd = .ok L ∧ L ≠ [] ∧
    (∀ p ∈ L, fs.shapeOf p.raw = fs.shapeOf p.gt) ∧
    (∀ p ∈ L, (fs.shapeOf p.raw).length = (fs.shapeOf (L.headD default).raw).length) ∧
    m = foldMinShapes (L.map (fun p => fs.shapeOf p.raw)) := by
  unfold load_data_paths at h
  split at h
  · cases h
  · rename_i pairList hr
    obtain ⟨hL, rest⟩ := verifyAndMin_ok_some fs pairList L m h
    subst hL
    exact ⟨hr, rest⟩

/-- Characterisation of a successful directory resolution: the positional
pairing of the two sorted globs, which is never empty. -/
theorem resolveDirPairs_ok (fs : FS) (rd gd : String) (extra : List ImagePair)
    (h : resolveDirPairs fs rd gd = .ok extra) :
    extra = List.zipWith (fun r g => ImagePair.mk (pathJoin rd r) (pathJoin gd g))
      (globTif (fs.listDir rd)) (globTif (fs.listDir gd)) ∧ extra ≠ [] := by
  simp only [resolveDirPairs] at h
  split at h
  · cases h
  · rename_i hraw
    split at h
    · cases h
    · rename_i hlen
      push_neg at hlen
      simp only [Except.ok.injEq] at h
      refine ⟨h.symm, ?_⟩
      intro hE
      apply hraw
      have h1 := congrArg List.length h
      rw [hE] at h1
      simp only [List.length_zipWith, List.length_nil] at h1
      rw [← hlen, min_self] at h1
      exact List.length_eq_zero.mp h1

/-! ## Element-wise minimum fold lemmas -/

theorem zipWith_min_assoc (a : List Nat) :
    ∀ b c : List Nat, List.zipWith min (List.zipWith min a b) c =
      List.zipWith min a (List.zipWith min b c) := by
  induction a with
  | nil => intro b c; simp
  | cons x xs ih =>
    intro b c
    cases b with
    | nil => simp
    | cons y ys =>
      cases c with
      | nil => simp
      | cons z zs => simp [ih, min_assoc]

theorem foldl_zipWith_min (shapes : List (List Nat)) :
    ∀ s0 base : List Nat,
      List.zipWith min base (shapes.foldl (fun a s => List.zipWith min a s) s0) =
        shapes.foldl (fun a s => List.zipWith min a s) (List.zipWith min base s0) := by
  induction shapes with
  | nil => intro s0 base; rfl
  | cons t rest ih =>
    intro s0 base
    simp only [List.foldl_cons]
    rw [ih (List.zipWith min s0 t) base, zipWith_min_assoc]

theorem zipWith_foldMin (shapes : List (List Nat)) (s0 base : List Nat) :
    List.zipWith min base (foldMinShapes (s0 :: shapes)) =
      (s0 :: shapes).foldl (fun a s => List.zipWith min a s) base := by
  simp only [foldMinShapes, List.foldl_cons]
  exact foldl_zipWith_min shapes s0 base

theorem zipWith_min_getD_left (a : List Nat) :
    ∀ (b : List Nat) (i : Nat), (List.zipWith min a b).getD i 0 ≤ a.getD i 0 := by
  induction a with
  | nil => intro b i; simp
  | cons x xs ih =>
    intro b i
    cases b with
    | nil => simp
    | cons y ys =>
      cases i with
      | zero => simp
      | succ n => simpa using ih ys n

theorem zipWith_min_getD_right (a : List Nat) :
    ∀ (b : List Nat) (i : Nat), (List.zipWith min a b).getD i 0 ≤ b.getD i 0 := by
  induction a with
  | nil => intro b i; simp
  | cons x xs ih =>
    intro b i
    cases b with
    | nil => simp
    | cons y ys =>
      cases i with
      | zero => simp
      | succ n => simpa using ih ys n

theorem foldl_min_getD_le_acc (shapes : List (List Nat)) :
    ∀ (acc : List Nat) (i : Nat),
      (shapes.foldl (fun a s => List.zipWith min a s) acc).getD i 0 ≤ acc.getD i 0 := by
  induction shapes with
  | nil => intro acc i; simp
  | cons t rest ih =>
    intro acc i
    simp only [List.foldl_cons]
    exact le_trans (ih _ i) (zipWith_min_getD_left acc t i)

theorem foldl_min_getD_le_mem (shapes : List (List Nat)) (s : List Nat) :
    s ∈ shapes → ∀ (acc : List Nat) (i : Nat),
      (shapes.foldl (fun a s => List.zipWith min a s) acc).getD i 0 ≤ s.getD i 0 := by
  induction shapes with
  | nil => intro hs; cases hs
  | cons t rest ih =>
    intro hs acc i
    simp only [List.foldl_cons]
    rcases List.mem_cons.mp hs with h1 | h1
    · subst h1
      exact le_trans (foldl_min_getD_le_acc rest _ i) (zipWith_min_getD_right acc s i)
    · exact ih h1 _ i

theorem foldl_min_length (shapes : List (List Nat)) :
    ∀ acc, (∀ s ∈ shapes, s.length = acc.length) →
      (shapes.foldl (fun a s => List.zipWith min a s) acc).length = acc.length := by
  induction shapes with
  | nil => intro acc _; rfl
  | cons t rest ih =>
    intro acc h
    simp only [List.foldl_cons]
    have ht : t.length = acc.length := h t (by simp)
    have hlen : (List.zipWith min acc t).length = acc.length := by
      simp [List.length_zipWith, ht]
    rw [ih _ (fun u hu => by rw [hlen]; exact h u (by simp [hu])), hlen]

theorem foldMinShapes_length (s0 : List Nat) (rest : List (List Nat))
    (h : ∀ s ∈ rest, s.length = s0.length) :
    (foldMinShapes (s0 :: rest)).length = s0.length :=
  foldl_min_length rest s0 h

theorem resolveBase_ok_length (cfg : TrainConfig) (n : Nat) (base : List Nat)
    (hn : n = 2 ∨ n = 3) (h : resolveBase cfg n = .ok base) : base.length = n := by
  unfold resolveBase at h
  split at h
  · rename_i sh
    split at h
    · cases h
    · rename_i hne
      push_neg at hne
      simp only [Except.ok.injEq] at h
      rw [← h]
      exact hne
  · simp only [Except.ok.injEq] at h
    rw [← h]
    rcases hn with hn | hn <;> simp [defaultInputShape, hn]

/-- The claim's own description of the resolved input shape: the base shape
(configured or default) folded down by the element-wise minimum with the
raw shape of every pair. -/
def specResolvedShape (fs : FS) (base : List Nat) (pairs : List ImagePair) : List Nat :=
  pairs.foldl (fun acc p => List.zipWith min acc (fs.shapeOf p.raw)) base

/-- The image pairs of an optional split. -/
def valPairsOf : Option (List ImagePair × List Nat) → List ImagePair
  | none => []
  | some (l, _) => l

theorem specResolvedShape_eq_foldl (fs : FS) (base : List Nat) (pairs : List ImagePair) :
    specResolvedShape fs base pairs =
      (pairs.map (fun p => fs.shapeOf p.raw)).foldl
        (fun a s => List.zipWith min a s) base := by
  rw [specResolvedShape, List.foldl_map]

/-! ## Claim theorems for data loading and shape reconciliation -/

/-- **C6.** Over the resolved pair list: if some pair's raw and ground-truth
shapes differ, `load_data_paths` raises a shape-mismatch error naming an
offending pair's paths and shapes; if all pairs agree internally but two
pairs have different dimensionality, it raises the dimension-mismatch
error.  Both checks happen before the element-wise minimum is folded (the
function errors instead of returning any pair list or shape). -/
theorem reconciler_mismatch_errors (fs : FS) (ip : List ImagePair)
    (dd : Option (String × String)) (L : List ImagePair)
    (hL : resolvedPairList fs ip dd = .ok L) :
    ((∃ p ∈ L, fs.shapeOf p.raw ≠ fs.shapeOf p.gt) →
      ∃ r g, load_data_paths fs ip dd =
          .error (.shapeMismatch r g (fs.shapeOf r) (fs.shapeOf g)) ∧
        ImagePair.mk r g ∈ L ∧ fs.shapeOf r ≠ fs.shapeOf g) ∧
    ((∀ p ∈ L, fs.shapeOf p.raw = fs.shapeOf p.gt) →
      (∃ p ∈ L, ∃ q ∈ L, (fs.shapeOf p.raw).length ≠ (fs.shapeOf q.raw).length) →
      load_data_paths fs ip dd = .error .dimensionMismatch) := by
  have hload : load_data_paths fs ip dd = verifyAndMin fs L := by
    unfold load_data_paths
    rw [hL]
  constructor
  · rintro ⟨p, hp, hne⟩
    have hLne : L ≠ [] := by
      intro hE
      rw [hE] at hp
      cases hp
    obtain ⟨r, g, herr, hmem, hne2⟩ := verifyPairs_error_of_mismatch fs L p hp hne
    refine ⟨r, g, ?_, hmem, hne2⟩
    rw [hload]
    simp only [verifyAndMin, if_neg hLne, herr]
  · rintro hmatch ⟨p, hp, q, hq, hne⟩
    have hvp := verifyPairs_ok_of_match fs L hmatch
    cases L with
    | nil => cases hp
    | cons a rest =>
      have hex : ∃ s ∈ (a :: rest).map (fun p => fs.shapeOf p.raw),
          s.length ≠ (((a :: rest).map (fun p => fs.shapeOf p.raw)).headD []).length := by
        by_cases hpa : (fs.shapeOf p.raw).length = (fs.shapeOf a.raw).length
        · refine ⟨fs.shapeOf q.raw, List.mem_map_of_mem _ hq, ?_⟩
          intro hqa
          simp only [List.map_cons, List.headD_cons] at hqa
          exact hne (by rw [hpa, hqa])
        · refine ⟨fs.shapeOf p.raw, List.mem_map_of_mem _ hp, ?_⟩
          simpa using hpa
      have hck := checkNdims_error _ hex
      rw [hload]
      simp only [verifyAndMin, if_neg (by simp : ¬(a :: rest) = ([] : List ImagePair)),
        hvp, hck]

/-- Witness fixture for C6: one pair whose raw and ground-truth shapes
disagree. -/
def fsMismatch : FS :=
  ⟨fun p => if p = "a.tif" then [2, 2] else [3, 3], fun _ => []⟩

/-- Witness for C6: the mismatching pair makes the loader raise the
shape-mismatch error naming it. -/
theorem reconciler_mismatch_errors_witness :
    ∃ r g, load_data_paths fsMismatch [ImagePair.mk "a.tif" "b.tif"] none =
        .error (.shapeMismatch r g (fsMismatch.shapeOf r) (fsMismatch.shapeOf g)) ∧
      ImagePair.mk r g ∈ [ImagePair.mk "a.tif" "b.tif"] ∧
      fsMismatch.shapeOf r ≠ fsMismatch.shapeOf g :=
  (reconciler_mismatch_errors fsMismatch [ImagePair.mk "a.tif" "b.tif"] none
    [ImagePair.mk "a.tif" "b.tif"] rfl).1
    ⟨ImagePair.mk "a.tif" "b.tif", by simp, by decide⟩

/-- **C8, counterexample.** A configured but empty data directory does not
yield `(None, None)`: the loader raises the no-TIFF-found error even though
the pair list and the directory both yield no pairs. -/
theorem load_empty_dir_raises :
    load_data_paths ⟨fun _ => [], fun _ => []⟩ [] (some ("raw_dir", "gt_dir")) =
      .error (.noTiffFound "raw_dir") := rfl

/-- **C8, amended.** `load_data_paths` returns `(None, None)` exactly when
the split is not provided at all: the explicit pair list is empty and no
data directory is configured.  A configured directory without TIFF files
raises instead. -/
theorem load_none_iff (fs : FS) (ip : List ImagePair) (dd : Option (String × String)) :
    load_data_paths fs ip dd = .ok none ↔ ip = [] ∧ dd = none := by
  constructor
  · intro h
    cases dd with
    | none =>
      have h2 : verifyAndMin fs ip = .ok none := h
      exact ⟨verifyAndMin_none fs ip h2, rfl⟩
    | some rg =>
      obtain ⟨rd, gd⟩ := rg
      exfalso
      unfold load_data_paths at h
      split at h
      · cases h
      · rename_i pairList hr
        simp only [resolvedPairList] at hr
        have hne : pairList ≠ [] := by
          cases hdir : resolveDirPairs fs rd gd with
          | error e => rw [hdir] at hr; cases hr
          | ok extra =>
            rw [hdir] at hr
            simp only [Except.ok.injEq] at hr
            obtain ⟨-, hex⟩ := resolveDirPairs_ok fs rd gd extra hdir
            intro hE
            rw [← hr] at hE
            exact hex (List.append_eq_nil.mp hE).2
        exact hne (verifyAndMin_none fs pairList h)
  · rintro ⟨rfl, rfl⟩
    rfl

/-- **C10.** With both an explicit pair list and a data directory, the
loader appends the directory-derived pairs (the two sorted `*.tif` globs
matched by position) to the explicit pairs, errors when the two globs have
different lengths, and runs the shape verification and the minimum fold
over the combined list. -/
theorem dir_pairs_appended (fs : FS) (ip : List ImagePair) (rd gd : String) :
    (globTif (fs.listDir rd) ≠ [] →
      (globTif (fs.listDir rd)).length ≠ (globTif (fs.listDir gd)).length →
      load_data_paths fs ip (some (rd, gd)) = .error (.tiffCountMismatch rd gd)) ∧
    (∀ L m, load_data_paths fs ip (some (rd, gd)) = .ok (some (L, m)) →
      L = ip ++ List.zipWith (fun r g => ImagePair.mk (pathJoin rd r) (pathJoin gd g))
        (globTif (fs.listDir rd)) (globTif (fs.listDir gd)) ∧
      (∀ p ∈ L, fs.shapeOf p.raw = fs.shapeOf p.gt) ∧
      m = foldMinShapes (L.map (fun p => fs.shapeOf p.raw))) := by
  constructor
  · intro hne hlen
    have hdir : resolveDirPairs fs rd gd = .error (.tiffCountMismatch rd gd) := by
      simp only [resolveDirPairs]
      rw [if_neg hne, if_pos hlen]
    simp only [load_data_paths, resolvedPairList, hdir]
  · intro L m h
    obtain ⟨hres, _, hmatch, _, hm⟩ := load_ok_some fs ip (some (rd, gd)) L m h
    simp only [resolvedPairList] at hres
    cases hdir : resolveDirPairs fs rd gd with
    | error e => rw [hdir] at hres; cases hres
    | ok extra =>
      rw [hdir] at hres
      simp only [Except.ok.injEq] at hres
      obtain ⟨hex, -⟩ := resolveDirPairs_ok fs rd gd extra hdir
      exact ⟨by rw [← hres, hex], hmatch, hm⟩

/-- Witness fixture for C10: an explicit pair plus two directories whose
TIFF entries are listed out of sorted order. -/
def fsDirs : FS :=
  ⟨fun _ => [4, 4], fun d => if d = "r" then ["b.tif", "a.tif"] else ["d.tif", "c.tif"]⟩

/-- Witness for C10: the resolved list is the explicit pair followed by the
sorted directory pairs, verified and folded as one list. -/
theorem dir_pairs_appended_witness :
    [ImagePair.mk "x" "y", ImagePair.mk "r/a.tif" "g/c.tif",
        ImagePair.mk "r/b.tif" "g/d.tif"] =
      [ImagePair.mk "x" "y"] ++
        List.zipWith (fun r g => ImagePair.mk (pathJoin "r" r) (pathJoin "g" g))
          (globTif (fsDirs.listDir "r")) (globTif (fsDirs.listDir "g")) ∧
    (∀ p ∈ [ImagePair.mk "x" "y", ImagePair.mk "r/a.tif" "g/c.tif",
        ImagePair.mk "r/b.tif" "g/d.tif"],
      fsDirs.shapeOf p.raw = fsDirs.shapeOf p.gt) ∧
    [4, 4] = foldMinShapes
      ([ImagePair.mk "x" "y", ImagePair.mk "r/a.tif" "g/c.tif",
        ImagePair.mk "r/b.tif" "g/d.tif"].map (fun p => fsDirs.shapeOf p.raw)) :=
  (dir_pairs_appended fsDirs [ImagePair.mk "x" "y"] "r" "g").2
    [ImagePair.mk "x" "y", ImagePair.mk "r/a.tif" "g/c.tif",
      ImagePair.mk "r/b.tif" "g/d.tif"] [4, 4] rfl

/-- **C3.** When the module-level reconciliation succeeds (with 2D or 3D
data), the resolved input shape is exactly the base shape (configured
`input_shape` or inferred default) folded by the element-wise minimum with
the shapes of all training pairs and, when present, all validation pairs;
consequently it never exceeds any image's extent along any axis. -/
theorem resolved_shape_is_elementwise_min
    (fs : FS) (cfg : TrainConfig) (s base mt : List Nat)
    (tp : List ImagePair) (vres : Option (List ImagePair × List Nat))
    (htr : load_data_paths fs cfg.trainingImagePairs cfg.trainingDataDir =
      .ok (some (tp, mt)))
    (hval : load_data_paths fs cfg.validationImagePairs cfg.validationDataDir = .ok vres)
    (hndim : (fs.shapeOf (tp.headD default).raw).length = 2 ∨
      (fs.shapeOf (tp.headD default).raw).length = 3)
    (hbase : resolveBase cfg ((fs.shapeOf (tp.headD default).raw).length) = .ok base)
    (hres : resolveInputShape fs cfg = .ok s) :
    s = specResolvedShape fs base (tp ++ valPairsOf vres) ∧
    ∀ p ∈ tp ++ valPairsOf vres, ∀ i, s.getD i 0 ≤ (fs.shapeOf p.raw).getD i 0 := by
  obtain ⟨-, htne, -, htlen, hmt⟩ := load_ok_some _ _ _ _ _ htr
  cases tp with
  | nil => exact absurd rfl htne
  | cons p0 tps =>
    simp only [List.headD_cons] at hndim hbase htlen
    simp only [resolveInputShape, htr, hval] at hres
    have hblen : base.length = (fs.shapeOf p0.raw).length :=
      resolveBase_ok_length cfg _ base hndim hbase
    have hmtlen : mt.length = (fs.shapeOf p0.raw).length := by
      rw [hmt]
      simp only [List.map_cons]
      exact foldMinShapes_length _ _ (fun u hu => by
        obtain ⟨q, hq, rfl⟩ := List.mem_map.mp hu
        exact htlen q (List.mem_cons_of_mem _ hq))
    cases hvc : valNdimCheck fs ((fs.shapeOf p0.raw).length) vres with
    | error e => simp [hvc] at hres
    | ok u =>
      simp only [hvc, hbase] at hres
      have hnp1 : npMinimum base mt = .ok (List.zipWith min base mt) :=
        npMinimum_eq_zipWith _ _ (by rw [hblen, hmtlen])
      cases vres with
      | none =>
        simp only [combineShapes, hnp1] at hres
        simp only [Except.ok.injEq] at hres
        subst hres
        have e1 : (List.map (fun p => fs.shapeOf p.raw) (p0 :: tps)).foldl
            (fun a t => List.zipWith min a t) base = List.zipWith min base mt := by
          rw [hmt]
          simp only [List.map_cons]
          exact (zipWith_foldMin _ _ _).symm
        constructor
        · rw [specResolvedShape_eq_foldl]
          simp only [valPairsOf, List.append_nil]
          exact e1.symm
        · intro p hp i
          simp only [valPairsOf, List.append_nil] at hp
          rw [← e1]
          exact foldl_min_getD_le_mem _ _ (List.mem_map_of_mem _ hp) base i
      | some vpm =>
        obtain ⟨vp, mv⟩ := vpm
        obtain ⟨-, hvne, -, hvlen, hmv⟩ := load_ok_some _ _ _ _ _ hval
        cases vp with
        | nil => exact absurd rfl hvne
        | cons v0 vps =>
          simp only [List.headD_cons] at hvlen
          have hv0 : (fs.shapeOf v0.raw).length = (fs.shapeOf p0.raw).length := by
            simp only [valNdimCheck] at hvc
            by_contra hne2
            rw [if_pos hne2] at hvc
            cases hvc
          have hmvlen : mv.length = (fs.shapeOf p0.raw).length := by
            rw [hmv]
            simp only [List.map_cons]
            rw [foldMinShapes_length _ _ (fun u hu => by
              obtain ⟨q, hq, rfl⟩ := List.mem_map.mp hu
              exact hvlen q (List.mem_cons_of_mem _ hq))]
            exact hv0
          have hnp2 : npMinimum (List.zipWith min base mt) mv =
              .ok (List.zipWith min (List.zipWith min base mt) mv) :=
            npMinimum_eq_zipWith _ _
              (by simp [List.length_zipWith, hblen, hmtlen, hmvlen])
          simp only [combineShapes, hnp1, hnp2] at hres
          simp only [Except.ok.injEq] at hres
          subst hres
          have e1 : (List.map (fun p => fs.shapeOf p.raw) (p0 :: tps)).foldl
              (fun a t => List.zipWith min a t) base = List.zipWith min base mt := by
            rw [hmt]
            simp only [List.map_cons]
            exact (zipWith_foldMin _ _ _).symm
          have e2 : (List.map (fun p => fs.shapeOf p.raw) (v0 :: vps)).foldl
              (fun a t => List.zipWith min a t) (List.zipWith min base mt) =
              List.zipWith min (List.zipWith min base mt) mv := by
            rw [hmv]
            simp only [List.map_cons]
            exact (zipWith_foldMin _ _ _).symm
          have hfold : ((p0 :: tps ++ v0 :: vps).map (fun p => fs.shapeOf p.raw)).foldl
              (fun a t => List.zipWith min a t) base =
              List.zipWith min (List.zipWith min base mt) mv := by
            rw [List.map_append, List.foldl_append, e1, e2]
          constructor
          · rw [specResolvedShape_eq_foldl]
            simp only [valPairsOf]
            exact hfold.symm
          · intro p hp i
            simp only [valPairsOf] at hp
            rw [← hfold]
            exact foldl_min_getD_le_mem _ _ (List.mem_map_of_mem _ hp) base i

/-- Witness fixture for C3: three training pairs with shapes
`(10,100,100)`, `(8,120,90)` and `(12,100,100)`. -/
def fsShapes : FS :=
  ⟨fun p => if p = "a" then [10, 100, 100] else if p = "c" then [8, 120, 90]
    else [12, 100, 100], fun _ => []⟩

/-- Witness fixture for C3: a config with those three explicit training
pairs, no validation split, and no configured `input_shape`. -/
def cfgShapes : TrainConfig :=
  ⟨[ImagePair.mk "a" "a", ImagePair.mk "c" "c", ImagePair.mk "e" "e"], none, [], none, none⟩

/-- Witness for C3: the spec's worked example resolves to `(8,100,90)`
(starting from the inferred 3D default `(16,256,256)`). -/
theorem resolved_shape_is_elementwise_min_witness :
    [8, 100, 90] = specResolvedShape fsShapes [16, 256, 256]
      (cfgShapes.trainingImagePairs ++ valPairsOf none) ∧
    ∀ p ∈ cfgShapes.trainingImagePairs ++ valPairsOf none, ∀ i,
      ([8, 100, 90] : List Nat).getD i 0 ≤ (fsShapes.shapeOf p.raw).getD i 0 :=
  resolved_shape_is_elementwise_min fsShapes cfgShapes [8, 100, 90] [16, 256, 256]
    [8, 100, 90] cfgShapes.trainingImagePairs none rfl rfl (Or.inr rfl) rfl rfl

/-! ## Lemmas and claim theorem for the configuration validator -/

theorem validateProp_unknown (k : String) (v : JVal) (h : ¬ k ∈ allowedKeys) :
    validateProp k v = false := by
  simp only [allowedKeys, List.mem_cons, List.not_mem_nil, or_false] at h
  push_neg at h
  obtain ⟨h1, h2, h3, h4, h5, h6, h7, h8, h9, h10, h11, h12, h13, h14, h15, h16, h17,
    h18⟩ := h
  simp [validateProp, h1, h2, h3, h4, h5, h6, h7, h8, h9, h10, h11, h12, h13, h14,
    h15, h16, h17, h18]

theorem lookupKey_append_some (kvs l : List (String × JVal)) (k : String) (v : JVal)
    (h : lookupKey kvs k = some v) : lookupKey (kvs ++ l) k = some v := by
  induction kvs with
  | nil => cases h
  | cons kv rest ih =>
    obtain ⟨k1, v1⟩ := kv
    by_cases hk : k1 = k
    · simpa [lookupKey, hk] using h
    · simp only [List.cons_append, lookupKey, if_neg hk] at h ⊢
      exact ih h

theorem lookupKey_append_none (kvs l : List (String × JVal)) (k : String)
    (h : lookupKey kvs k = none) : lookupKey (kvs ++ l) k = lookupKey l k := by
  induction kvs with
  | nil => rfl
  | cons kv rest ih =>
    obtain ⟨k1, v1⟩ := kv
    by_cases hk : k1 = k
    · simp [lookupKey, hk] at h
    · simp only [List.cons_append, lookupKey, if_neg hk] at h ⊢
      exact ih h

theorem lookupKey_setdefault_some (kvs : List (String × JVal)) (k2 : String) (v2 : JVal)
    (k : String) (v : JVal) (h : lookupKey kvs k = some v) :
    lookupKey (setdefault kvs k2 v2) k = some v := by
  unfold setdefault
  split
  · exact h
  · exact lookupKey_append_some _ _ _ _ h

theorem lookupKey_setdefault_none_other (kvs : List (String × JVal)) (k2 : String)
    (v2 : JVal) (k : String) (hne : k2 ≠ k) (h : lookupKey kvs k = none) :
    lookupKey (setdefault kvs k2 v2) k = none := by
  unfold setdefault
  split
  · exact h
  · rw [lookupKey_append_none _ _ _ h]
    simp [lookupKey, hne]

theorem lookupKey_setdefault_self (kvs : List (String × JVal)) (k : String) (v : JVal)
    (h : lookupKey kvs k = none) : lookupKey (setdefault kvs k v) k = some v := by
  unfold setdefault
  split
  · rename_i w hw
    rw [h] at hw
    cases hw
  · rw [lookupKey_append_none _ _ _ h]
    simp [lookupKey]

theorem foldl_setdefault_some (ds : List (String × JVal)) :
    ∀ (acc : List (String × JVal)) (k : String) (v : JVal),
      lookupKey acc k = some v →
      lookupKey (ds.foldl (fun a kd => setdefault a kd.fst kd.snd) acc) k = some v := by
  induction ds with
  | nil => intro acc k v h; exact h
  | cons d rest ih =>
    intro acc k v h
    simp only [List.foldl_cons]
    exact ih _ _ _ (lookupKey_setdefault_some _ _ _ _ _ h)

theorem foldl_setdefault_mem (ds : List (String × JVal)) :
    List.Pairwise (fun a b => a.fst ≠ b.fst) ds →
    ∀ (acc : List (String × JVal)) (kd : String × JVal), kd ∈ ds →
      lookupKey acc kd.fst = none →
      lookupKey (ds.foldl (fun a kd => setdefault a kd.fst kd.snd) acc) kd.fst =
        some kd.snd := by
  induction ds with
  | nil => intro _ acc kd h; cases h
  | cons d rest ih =>
    intro hpw acc kd hmem hnone
    simp only [List.foldl_cons]
    rcases List.mem_cons.mp hmem with h1 | h1
    · subst h1
      exact foldl_setdefault_some rest _ _ _ (lookupKey_setdefault_self _ _ _ hnone)
    · have hne : d.fst ≠ kd.fst := (List.pairwise_cons.mp hpw).1 kd h1
      exact ih (List.pairwise_cons.mp hpw).2 _ _ h1
        (lookupKey_setdefault_none_other _ _ _ _ hne hnone)

/-- **C9.** The schema is closed: any config object carrying a key outside
the declared properties is rejected, and a config with neither
`training_image_pairs` nor `training_data_dir` is rejected.  After
validation, every unset field of the defaults table (epochs 300, ...) is
filled with its documented default, and every explicitly set value is left
untouched. -/
theorem config_schema_closed_and_defaults :
    (∀ (kvs : List (String × JVal)) (k : String) (v : JVal),
      (k, v) ∈ kvs → ¬ k ∈ allowedKeys → validateConfig (.jobj kvs) = false) ∧
    (∀ kvs : List (String × JVal),
      lookupKey kvs "training_image_pairs" = none →
      lookupKey kvs "training_data_dir" = none →
      validateConfig (.jobj kvs) = false) ∧
    (∀ (kvs : List (String × JVal)) (kd : String × JVal), kd ∈ configDefaults →
      lookupKey kvs kd.fst = none →
      lookupKey (applyDefaults kvs) kd.fst = some kd.snd) ∧
    (∀ (kvs : List (String × JVal)) (k : String) (v : JVal),
      lookupKey kvs k = some v → lookupKey (applyDefaults kvs) k = some v) := by
  refine ⟨?_, ?_, ?_, ?_⟩
  · intro kvs k v hmem hk
    have hall : kvs.all (fun kv => validateProp kv.fst kv.snd) = false := by
      apply List.all_eq_false.mpr
      exact ⟨(k, v), hmem, by simp [validateProp_unknown k v hk]⟩
    simp [validateConfig, hall]
  · intro kvs h1 h2
    simp [validateConfig, h1, h2]
  · intro kvs kd hmem hnone
    exact foldl_setdefault_mem configDefaults (by decide) kvs kd hmem hnone
  · intro kvs k v h
    exact foldl_setdefault_some configDefaults kvs k v h

/-- Witness for C9: a config with only the unknown key `foo` is rejected,
and `applyDefaults` on an empty config yields `epochs == 300`. -/
theorem config_schema_closed_and_defaults_witness :
    validateConfig (.jobj [("foo", JVal.jint 1)]) = false ∧
    lookupKey (applyDefaults []) "epochs" = some (JVal.jint 300) := by
  constructor
  · exact config_schema_closed_and_defaults.1 _ "foo" (JVal.jint 1) (by simp) (by decide)
  · exact config_schema_closed_and_defaults.2.2.1 [] ("epochs", JVal.jint 300)
      (by simp [configDefaults]) rfl

end RCAN
